import Mathlib

/-!
Shallow embedding of the Project Exhibition Portal backend (`src/server.js`).

The embedding models the mutable MongoDB collections (`User`, `Project`,
`Application`) as lists inside a single state record, and each Express
route handler that the claims refer to as a pure function
`St → … → Except Err St`.  An `Except.error` result corresponds to an
early `return res.status(4xx)`; since every handler performs all of its
precondition checks before its first database write, an error result
carrying no state is a faithful rendering of "the request fails and
nothing is mutated".

Modelling decisions, each matching the source:
* `loginId` (a 6-digit string for faculty) is modelled as a `Nat` field
  `fid`; sorting 6-digit strings lexicographically coincides with the
  numeric order.  Mongo's unique `_id` / unique `loginId` keys are
  expressed, where a proof needs them, as `Nodup` hypotheses.
* `projectsReviewed` is an `Int`: the reject handler decrements it with
  no floor, so it can genuinely go negative.
* `seatsAvailable` is an `Int` for the same reason (the invariant claims
  about it must be provable, not type-enforced).
* `Project.panel` is ghost state: `server.js` computes the 5 reviewers
  with `getNextReviewers` at creation time (and increments their
  counters) but never persists the list; no route handler reads it.
  Recording it lets the claims about "the assigned panel" be stated.
* `cgpa`/`skills` payload fields of an application and the
  `title`/`timeline` strings of a project are never read by any handler
  logic; `cgpa`/`skills` are omitted, the strings are kept verbatim.
* Timestamps (`createdAt`, `updatedAt`, `appliedAt`, `reviewedAt`) are
  wall-clock metadata never consulted by any check and are omitted.
-/

namespace Portal

/-- Project lifecycle status (`projectSchema.status` enum). -/
inductive PStatus
  | pending
  | approved
  | rejected
deriving DecidableEq, Repr

/-- Application status (`applicationSchema.status` enum). -/
inductive AStatus
  | pending
  | selected
  | rejected
deriving DecidableEq, Repr

/-- A faculty user (`userSchema` restricted to role `faculty`): the only
role whose fields the audited handlers consult. -/
structure Faculty where
  fid : Nat
  area : String
  projectsReviewed : Int
deriving DecidableEq, Repr

/-- One entry of `projectSchema.rejectionComments`. -/
structure RejectionComment where
  faculty : Nat
  comment : String
deriving DecidableEq, Repr

/-- A project proposal (`projectSchema`).  `panel` is ghost state, see
the file header. -/
structure Project where
  pid : Nat
  title : String
  abstract : String
  timeline : String
  seats : Nat
  seatsAvailable : Int
  faculty : Nat
  status : PStatus
  reviewedBy : List Nat
  rejectionComments : List RejectionComment
  panel : List Nat
deriving DecidableEq, Repr

/-- A student application (`applicationSchema`). -/
structure Application where
  aid : Nat
  student : Nat
  project : Nat
  status : AStatus
deriving DecidableEq, Repr

/-- The whole database state. -/
structure St where
  users : List Faculty
  projects : List Project
  applications : List Application
deriving DecidableEq, Repr

/-- Classified failure outcomes of the audited handlers (each tag
corresponds to one early `res.status(4xx)` return in `server.js`). -/
inductive Err
  | abstractTooLong
  | insufficientReviewers
  | workloadExceeded
  | projectNotFound
  | wrongArea
  | badComment
  | appLimit
  | duplicateApp
  | notApproved
  | noSeats
  | appNotFound
  | notAuthorized
  | alreadySelected
deriving DecidableEq, Repr

deriving instance DecidableEq for Except

/-- `Project.findById` on the modelled collection. -/
def findProj (s : St) (pid : Nat) : Option Project :=
  s.projects.find? (fun p => p.pid == pid)

/-- `User.findById` on the modelled collection (the `populate('faculty')`
step of the review handlers). -/
def findUser (s : St) (fid : Nat) : Option Faculty :=
  s.users.find? (fun u => u.fid == fid)

/-- `Application.findById` on the modelled collection. -/
def findApp (s : St) (aid : Nat) : Option Application :=
  s.applications.find? (fun a => a.aid == aid)

/-- Default element for in-bounds `List.getD` indexing. -/
def dFac : Faculty :=
  { fid := 0, area := "", projectsReviewed := 0 }

/-- The eligible-reviewer ring of `getNextReviewers` (server.js:94-98):
faculty of the area, the proposer excluded, sorted (stably) by login
identifier. -/
def eligibleRing (users : List Faculty) (area : String) (proposer : Nat) : List Faculty :=
  List.insertionSort (fun a b => a.fid ≤ b.fid)
    (users.filter (fun u => u.area == area && u.fid != proposer))

/-- `getNextReviewers` (server.js:93-113) over an already-built ring:
fails when fewer than 5 eligible faculty exist, otherwise returns the 5
consecutive ring entries starting at `(projectCount * 5) % ringSize`,
wrapping around. -/
def getNextReviewers (ring : List Faculty) (projectCount : Nat) :
    Except Err (List Faculty) :=
  if ring.length < 5 then .error .insufficientReviewers
  else
    let startIndex := (projectCount * 5) % ring.length
    .ok ((List.range 5).map (fun i => ring.getD ((startIndex + i) % ring.length) dFac))

/-- `POST /api/projects` (server.js:336-388), for a faculty caller: checks
the abstract bound, computes the running count of projects owned by
faculty of the caller's area, selects the panel, fails with
`workloadExceeded` if any selected reviewer already has 7 or more
pending reviews, and otherwise creates the pending project and
increments each selected reviewer's counter.  `areaProjectCount` is the
running `Project.countDocuments` of server.js:350-352: projects owned by
any user of the given area. -/
def areaProjectCount (s : St) (area : String) : Nat :=
  (s.projects.filter (fun p =>
    ((s.users.filter (fun u => u.area == area)).map (·.fid)).contains p.faculty)).length

def createProject (s : St) (caller : Faculty) (title abstract timeline : String)
    (seats : Nat) (newPid : Nat) : Except Err St :=
  if 2500 < abstract.length then .error .abstractTooLong
  else
    match getNextReviewers (eligibleRing s.users caller.area caller.fid)
        (areaProjectCount s caller.area) with
    | .error e => .error e
    | .ok reviewers =>
      if reviewers.any (fun r => 7 ≤ r.projectsReviewed) then .error .workloadExceeded
      else
        let panelIds := reviewers.map (·.fid)
        let proj : Project :=
          { pid := newPid, title := title, abstract := abstract, timeline := timeline,
            seats := seats, seatsAvailable := (seats : Int), faculty := caller.fid,
            status := .pending, reviewedBy := [], rejectionComments := [],
            panel := panelIds }
        .ok { s with
          projects := s.projects ++ [proj],
          users := s.users.map (fun u =>
            if panelIds.contains u.fid then
              { u with projectsReviewed := u.projectsReviewed + 1 }
            else u) }

/-- `POST /api/projects/:id/approve` (server.js:435-464), for a faculty
caller: after the area check, unconditionally pushes the caller onto
`reviewedBy` (no panel-membership or already-reviewed check exists in the
source) and sets the status to `approved` as soon as `reviewedBy` holds
at least 3 entries. -/
def approveProject (s : St) (caller : Faculty) (pid : Nat) : Except Err St :=
  match findProj s pid with
  | none => .error .projectNotFound
  | some project =>
    match findUser s project.faculty with
    | none => .error .projectNotFound
    | some owner =>
      if owner.area ≠ caller.area then .error .wrongArea
      else
        let reviewed := project.reviewedBy ++ [caller.fid]
        let p' : Project :=
          { project with
            reviewedBy := reviewed,
            status := if 3 ≤ reviewed.length then .approved else project.status }
        .ok { s with projects := s.projects.map (fun q => if q.pid == pid then p' else q) }

/-- `POST /api/projects/:id/reject` (server.js:466-506), for a faculty
caller: requires a non-empty comment of at most 2500 characters, and
after the area check records the comment, sets the status to `rejected`
unconditionally, and decrements `projectsReviewed` of EVERY faculty in
the caller's research area (`User.updateMany` filtered only by area and
role). -/
def rejectProject (s : St) (caller : Faculty) (pid : Nat) (comment : String) :
    Except Err St :=
  if comment.length = 0 ∨ 2500 < comment.length then .error .badComment
  else
    match findProj s pid with
    | none => .error .projectNotFound
    | some project =>
      match findUser s project.faculty with
      | none => .error .projectNotFound
      | some owner =>
        if owner.area ≠ caller.area then .error .wrongArea
        else
          let p' : Project :=
            { project with
              rejectionComments :=
                project.rejectionComments ++ [{ faculty := caller.fid, comment := comment }],
              status := .rejected }
          .ok { s with
            projects := s.projects.map (fun q => if q.pid == pid then p' else q),
            users := s.users.map (fun u =>
              if u.area == caller.area then
                { u with projectsReviewed := u.projectsReviewed - 1 }
              else u) }

/-- `Application.countDocuments({student})` (server.js:517): every
application of the student counts, whatever its status. -/
def studentAppCount (s : St) (student : Nat) : Nat :=
  (s.applications.filter (fun a => a.student == student)).length

/-- `Application.findOne({student, project})` viewed as a Boolean
existence test (server.js:522-525). -/
def hasApplied (s : St) (student : Nat) (projectId : Nat) : Bool :=
  s.applications.any (fun a => a.student == student && a.project == projectId)

/-- `Application.findOne({student, status:'selected'})` viewed as a
Boolean existence test (server.js:618-621); note it ranges over ALL of
the student's applications, the target of a `select` included. -/
def hasSelected (s : St) (student : Nat) : Bool :=
  s.applications.any (fun a => a.student == student && a.status == AStatus.selected)

/-- `POST /api/applications` (server.js:509-559), for a student caller:
cap of 3 applications of any status, duplicate check, the project must
exist, be approved and have a seat; on success appends a pending
application and decrements the project's `seatsAvailable`. -/
def applyToProject (s : St) (student : Nat) (projectId : Nat) (newAid : Nat) :
    Except Err St :=
  if 3 ≤ studentAppCount s student then
    .error .appLimit
  else if hasApplied s student projectId then
    .error .duplicateApp
  else
    match findProj s projectId with
    | none => .error .projectNotFound
    | some project =>
      if project.status ≠ .approved then .error .notApproved
      else if project.seatsAvailable ≤ 0 then .error .noSeats
      else
        .ok { s with
          applications := s.applications ++
            [{ aid := newAid, student := student, project := projectId, status := .pending }],
          projects := s.projects.map (fun q =>
            if q.pid == projectId then { q with seatsAvailable := q.seatsAvailable - 1 }
            else q) }

/-- `POST /api/applications/:id/select` (server.js:600-638), for a
faculty caller: ownership check on the application's project, then a
system-wide "already selected" check over ALL of the student's
applications (the target itself included, no filter on its own status);
on success the target becomes `selected` and every other application of
the same student becomes `rejected`; no seat counter is touched. -/
def selectApplication (s : St) (caller : Faculty) (aid : Nat) : Except Err St :=
  match findApp s aid with
  | none => .error .appNotFound
  | some application =>
    match findProj s application.project with
    | none => .error .appNotFound
    | some project =>
      if project.faculty ≠ caller.fid then .error .notAuthorized
      else if hasSelected s application.student then
        .error .alreadySelected
      else
        .ok { s with
          applications := s.applications.map (fun a =>
            if a.aid == aid then { a with status := .selected }
            else if a.student == application.student then { a with status := .rejected }
            else a) }

/-- `POST /api/applications/:id/reject` (server.js:640-668), for a
faculty caller: ownership check, then unconditionally sets the target to
`rejected` (whatever its current status) and increments the project's
`seatsAvailable` by 1. -/
def rejectApplication (s : St) (caller : Faculty) (aid : Nat) : Except Err St :=
  match findApp s aid with
  | none => .error .appNotFound
  | some application =>
    match findProj s application.project with
    | none => .error .appNotFound
    | some project =>
      if project.faculty ≠ caller.fid then .error .notAuthorized
      else
        .ok { s with
          applications := s.applications.map (fun a =>
            if a.aid == aid then { a with status := .rejected } else a),
          projects := s.projects.map (fun q =>
            if q.pid == application.project then
              { q with seatsAvailable := q.seatsAvailable + 1 }
            else q) }

/-- All seat counters of a state are non-negative. -/
def seatsNonneg (s : St) : Prop :=
  ∀ p ∈ s.projects, 0 ≤ p.seatsAvailable

/-! ### Concrete fixtures used by counterexamples and witnesses -/

/-- A faculty member of area `CS` with identifier `i` and load `c`. -/
def fac (i : Nat) (c : Int) : Faculty :=
  { fid := i, area := "CS", projectsReviewed := c }

/-- A pending proposal owned by faculty 0, panel `[1,2,3,4,5]`. -/
def proj1 : Project :=
  { pid := 1, title := "T", abstract := "A", timeline := "6m",
    seats := 2, seatsAvailable := 2, faculty := 0, status := .pending,
    reviewedBy := [], rejectionComments := [], panel := [1, 2, 3, 4, 5] }

/-- Faculty 0 owns `proj1`; 1-5 are the panel; 6 and 9 are same-area
faculty outside the panel. -/
def baseSt : St :=
  { users := [fac 0 0, fac 1 1, fac 2 1, fac 3 1, fac 4 1, fac 5 1, fac 6 1, fac 9 0],
    projects := [proj1],
    applications := [] }

/-- `baseSt` in which non-panel faculty 9 has already reviewed `proj1`. -/
def stC1w : St :=
  { baseSt with projects := [{ proj1 with reviewedBy := [9] }] }

/-- `baseSt` with `proj1` already approved after three reviews. -/
def stApproved : St :=
  { baseSt with projects := [{ proj1 with status := .approved, reviewedBy := [1, 2, 3] }] }

/-- `proj1` already rejected after one rejection and two approvals. -/
def projRejected : Project :=
  { proj1 with
    status := .rejected
    reviewedBy := [1, 2]
    rejectionComments := [{ faculty := 3, comment := "bad" }] }

/-- `baseSt` with `proj1` already rejected after one rejection and two
approvals. -/
def stRejected : St :=
  { baseSt with projects := [projRejected] }

/-- `baseSt` with two approvals recorded, one short of the threshold. -/
def stTwoApprovals : St :=
  { baseSt with projects := [{ proj1 with reviewedBy := [1, 2] }] }

/-- A one-seat approved project with its single seat taken by the one
pending application of student 100. -/
def stC5 : St :=
  { users := [fac 0 0],
    projects := [{ proj1 with status := .approved, seats := 1, seatsAvailable := 0 }],
    applications := [{ aid := 1, student := 100, project := 1, status := .pending }] }

/-- An approved project owned by faculty 0, carrying an
already-rejected application (aid 1) and a pending application (aid 2)
of the same student 100: used to exercise `select` on an
already-rejected target. -/
def stC10 : St :=
  { users := [fac 0 0],
    projects := [{ proj1 with status := .approved, seatsAvailable := 1 }],
    applications := [{ aid := 1, student := 100, project := 1, status := .rejected },
                     { aid := 2, student := 100, project := 1, status := .pending }] }

/-- The state after faculty 0 explicitly rejects the application of
`stC5`: the application is `rejected` and the seat is restored. -/
def stC5r : St :=
  { users := [fac 0 0],
    projects := [{ proj1 with status := .approved, seats := 1, seatsAvailable := 1 }],
    applications := [{ aid := 1, student := 100, project := 1, status := .rejected }] }

/-- An approved two-seat project with no applications yet. -/
def stC6 : St :=
  { users := [fac 0 0],
    projects := [{ proj1 with status := .approved }],
    applications := [] }

/-- `stC6` after student 100 successfully applies (aid 5). -/
def stC6a : St :=
  { users := [fac 0 0],
    projects := [{ proj1 with status := .approved, seatsAvailable := 1 }],
    applications := [{ aid := 5, student := 100, project := 1, status := .pending }] }

/-- The second project of `stC7`, owned by faculty 7. -/
def projC7b : Project :=
  { proj1 with
    pid := 2
    faculty := 7
    status := .approved
    seatsAvailable := 1 }

/-- Two approved projects owned by faculty 0 and 7; student 100 has
pending applications on both, student 200 is already selected on
project 1. -/
def stC7 : St :=
  { users := [fac 0 0, fac 7 0],
    projects := [{ proj1 with status := .approved, seatsAvailable := 1 }, projC7b],
    applications := [{ aid := 1, student := 100, project := 1, status := .pending },
                     { aid := 2, student := 100, project := 2, status := .pending },
                     { aid := 3, student := 200, project := 1, status := .selected }] }

/-- `baseSt` with faculty 3 already at the pending-load ceiling of 7. -/
def stC9bad : St :=
  { baseSt with users :=
      [fac 0 0, fac 1 1, fac 2 1, fac 3 7, fac 4 1, fac 5 1, fac 6 1, fac 9 0] }

/-! ## Helper lemmas -/

/-- `find?` commutes with a `map` whose function preserves the
predicate. -/
theorem find?_map_pres {α : Type} (p : α → Bool) (f : α → α)
    (hk : ∀ a, p (f a) = p a) (l : List α) :
    (l.map f).find? p = (l.find? p).map f := by
  have hpf : p ∘ f = p := funext hk
  rw [List.find?_map, hpf]

/-- Looking up `pid` after the save-back `map` of a review handler finds
the updated document. -/
theorem find?_replace (l : List Project) (pid : Nat) (project p' : Project)
    (hp : l.find? (fun q => q.pid == pid) = some project) (hk : p'.pid = project.pid) :
    (l.map (fun q => if q.pid == pid then p' else q)).find? (fun q => q.pid == pid) =
      some p' := by
  have hpid := List.find?_some hp
  have hk2 : ∀ q : Project,
      ((if (q.pid == pid) = true then p' else q).pid == pid) = (q.pid == pid) := by
    intro q
    by_cases h : (q.pid == pid) = true
    · rw [if_pos h, h, hk]
      exact hpid
    · rw [if_neg h]
  rw [find?_map_pres _ _ hk2, hp]
  show some (if (project.pid == pid) = true then p' else project) = some p'
  rw [if_pos hpid]

/-- `Except.map` on a success value, at the `Err` error type. -/
theorem exmap_ok {α β : Type} (f : α → β) (x : α) :
    (Except.ok x : Except Err α).map f = Except.ok (f x) := rfl

/-- Mapping a seat-safe function over a project list keeps all seat
counters non-negative. -/
theorem seats_map_pres (l : List Project) (f : Project → Project)
    (hf : ∀ q ∈ l, 0 ≤ q.seatsAvailable → 0 ≤ (f q).seatsAvailable)
    (h : ∀ p ∈ l, 0 ≤ p.seatsAvailable) :
    ∀ p ∈ l.map f, 0 ≤ p.seatsAvailable := by
  intro p hp
  obtain ⟨q, hq, rfl⟩ := List.mem_map.1 hp
  exact hf q hq (h q hq)

/-- `Option.map` on a `some` value. -/
theorem omap_some {α β : Type} (f : α → β) (x : α) :
    (some x).map f = some (f x) := rfl

/-- `getD` at an in-bounds index is the plain element. -/
theorem getD_of_lt {α : Type} (l : List α) (n : Nat) (d : α) (h : n < l.length) :
    l.getD n d = l[n] := by
  rw [List.getD_eq_getElem?_getD, List.getElem?_eq_getElem h]
  rfl

/-- Two offsets below 5 that agree after a common shift modulo
`len ≥ 5` are equal. -/
theorem mod_shift_inj (st len i j : Nat) (h5 : 5 ≤ len) (hi : i < 5) (hj : j < 5)
    (h : (st + i) % len = (st + j) % len) : i = j := by
  have h2 : i % len = j % len := Nat.ModEq.add_left_cancel' st h
  rwa [Nat.mod_eq_of_lt (lt_of_lt_of_le hi h5),
    Nat.mod_eq_of_lt (lt_of_lt_of_le hj h5)] at h2

/-! ## Claim C1 -/

/-- C1 is false on the code: faculty 9 is not on the assigned panel of
`proj1`, yet their approve decision is recorded into `reviewedBy`; and
faculty 1, who is on the panel, can submit approve twice, the second
attempt being recorded again instead of failing with AlreadyReviewed. -/
theorem C1_counterexample :
    ((9 : Nat) ∉ proj1.panel ∧
      (approveProject baseSt (fac 9 0) 1).map
        (fun t => (findProj t 1).map (·.reviewedBy)) = Except.ok (some [9])) ∧
    ((1 : Nat) ∈ proj1.panel ∧
      (do
        let s1 ← approveProject baseSt (fac 1 1) 1
        let s2 ← approveProject s1 (fac 1 1) 1
        pure ((findProj s2 1).map (·.reviewedBy))) = Except.ok (some [1, 1])) := by
  decide

/-- C1 amended: a review decision is recorded for ANY faculty caller
whose research area matches the proposal owner's area — the handlers
check neither membership in the assigned panel nor whether the caller
already reviewed.  Even a caller outside the panel who already appears
in `reviewedBy` has an approve appended (a duplicate entry) and a reject
comment recorded. -/
theorem C1_amended (s : St) (caller : Faculty) (pid : Nat) (project : Project)
    (owner : Faculty)
    (hp : findProj s pid = some project) (ho : findUser s project.faculty = some owner)
    (ha : owner.area = caller.area)
    (hnp : caller.fid ∉ project.panel) (hrev : caller.fid ∈ project.reviewedBy) :
    (approveProject s caller pid).map (fun t => (findProj t pid).map (·.reviewedBy)) =
      Except.ok (some (project.reviewedBy ++ [caller.fid])) ∧
    ∀ comment, comment.length ≠ 0 → comment.length ≤ 2500 →
      (rejectProject s caller pid comment).map
          (fun t => (findProj t pid).map (·.rejectionComments)) =
        Except.ok (some (project.rejectionComments ++
          [{ faculty := caller.fid, comment := comment }])) := by
  have hp' : s.projects.find? (fun q => q.pid == pid) = some project := hp
  have ho' : s.users.find? (fun u => u.fid == project.faculty) = some owner := ho
  constructor
  · unfold approveProject
    simp only [findProj, findUser, hp', ho', if_neg (not_not_intro ha), exmap_ok]
    rw [find?_replace s.projects pid project _ hp' (by rfl)]
    rfl
  · intro comment hc1 hc2
    unfold rejectProject
    rw [if_neg (by push_neg; exact ⟨hc1, by omega⟩)]
    simp only [findProj, findUser, hp', ho', if_neg (not_not_intro ha), exmap_ok]
    rw [find?_replace s.projects pid project _ hp' (by rfl)]
    rfl

/-- C1 amended, witnessed at `stC1w`: faculty 9, outside the panel and
already in `reviewedBy`, gets a second approve entry recorded, and can
likewise record a reject comment. -/
theorem C1_amended_witness :
    (approveProject stC1w (fac 9 0) 1).map (fun t => (findProj t 1).map (·.reviewedBy)) =
      Except.ok (some [9, 9]) ∧
    (rejectProject stC1w (fac 9 0) 1 "no").map
        (fun t => (findProj t 1).map (·.rejectionComments)) =
      Except.ok (some [{ faculty := 9, comment := "no" }]) := by
  have h := C1_amended stC1w (fac 9 0) 1 { proj1 with reviewedBy := [9] } (fac 0 0)
    (by decide) (by decide) (by decide) (by decide) (by decide)
  refine ⟨?_, ?_⟩
  · rw [h.1]
    decide
  · rw [h.2 "no" (by decide) (by decide)]
    decide

/-! ## Claim C2 -/

/-- C2: on a pending proposal reviewed by a same-area faculty caller, a
reject with a non-empty comment of at most 2500 characters immediately
makes the status `rejected` (whatever `reviewedBy` already holds), a
reject with an empty or over-long comment fails with `badComment`
recording nothing, and an approve makes the status `approved` exactly
when the tally (`reviewedBy` length) reaches 3 — i.e. when at least two
entries preceded it — and leaves it `pending` otherwise. -/
theorem C2 (s : St) (caller : Faculty) (pid : Nat) (project : Project) (owner : Faculty)
    (hp : findProj s pid = some project) (ho : findUser s project.faculty = some owner)
    (ha : owner.area = caller.area) (hpend : project.status = .pending) :
    (∀ comment, comment.length ≠ 0 → comment.length ≤ 2500 →
      (rejectProject s caller pid comment).map
          (fun t => (findProj t pid).map (·.status)) =
        Except.ok (some PStatus.rejected)) ∧
    (∀ comment, comment.length = 0 ∨ 2500 < comment.length →
      rejectProject s caller pid comment = Except.error Err.badComment) ∧
    (approveProject s caller pid).map (fun t => (findProj t pid).map (·.status)) =
      Except.ok (some (if 2 ≤ project.reviewedBy.length then PStatus.approved
        else PStatus.pending)) := by
  have hp' : s.projects.find? (fun q => q.pid == pid) = some project := hp
  have ho' : s.users.find? (fun u => u.fid == project.faculty) = some owner := ho
  refine ⟨?_, ?_, ?_⟩
  · intro comment hc1 hc2
    unfold rejectProject
    rw [if_neg (by push_neg; exact ⟨hc1, by omega⟩)]
    simp only [findProj, findUser, hp', ho', if_neg (not_not_intro ha), exmap_ok]
    rw [find?_replace s.projects pid project _ hp' (by rfl)]
    rfl
  · intro comment hc
    unfold rejectProject
    rw [if_pos (by omega)]
  · unfold approveProject
    simp only [findProj, findUser, hp', ho', if_neg (not_not_intro ha), exmap_ok]
    rw [find?_replace s.projects pid project _ hp' (by rfl)]
    show Except.ok (some (if 3 ≤ (project.reviewedBy ++ [caller.fid]).length
        then PStatus.approved else project.status)) =
      Except.ok (some (if 2 ≤ project.reviewedBy.length
        then PStatus.approved else PStatus.pending))
    rw [hpend]
    have hlen : (project.reviewedBy ++ [caller.fid]).length =
        project.reviewedBy.length + 1 := by simp
    rw [hlen]
    by_cases h2 : 2 ≤ project.reviewedBy.length
    · rw [if_pos (by omega), if_pos h2]
    · rw [if_neg (by omega), if_neg h2]

/-- C2 witnessed on `baseSt` (no prior review) and `stTwoApprovals`
(two prior approvals): valid reject lands `rejected`; empty comment
fails; the first approve leaves `pending`, the third approve lands
`approved`. -/
theorem C2_witness :
    (rejectProject baseSt (fac 1 1) 1 "needs work").map
        (fun t => (findProj t 1).map (·.status)) = Except.ok (some .rejected) ∧
    rejectProject baseSt (fac 1 1) 1 "" = Except.error Err.badComment ∧
    (approveProject baseSt (fac 1 1) 1).map
        (fun t => (findProj t 1).map (·.status)) = Except.ok (some .pending) ∧
    (approveProject stTwoApprovals (fac 3 1) 1).map
        (fun t => (findProj t 1).map (·.status)) = Except.ok (some .approved) := by
  have h1 := C2 baseSt (fac 1 1) 1 proj1 (fac 0 0)
    (by decide) (by decide) (by decide) (by decide)
  have h2 := C2 stTwoApprovals (fac 3 1) 1 { proj1 with reviewedBy := [1, 2] } (fac 0 0)
    (by decide) (by decide) (by decide) (by decide)
  refine ⟨?_, h1.2.1 "" (by decide), ?_, ?_⟩
  · rw [h1.1 "needs work" (by decide) (by decide)]
  · rw [h1.2.2]
    decide
  · rw [h2.2.2]
    decide

/-! ## Claim C3 -/

/-- C3 is false on the code: `stApproved` holds `proj1` already
`approved`, yet a later reject call succeeds and flips it to `rejected`;
`stRejected` holds `proj1` already `rejected`, yet a later approve call
succeeds, is recorded, and (as the third `reviewedBy` entry) reopens it
to `approved`. -/
theorem C3_counterexample :
    ((findProj stApproved 1).map (·.status) = some .approved ∧
      (rejectProject stApproved (fac 4 1) 1 "needs more data").map
          (fun t => (findProj t 1).map (·.status)) = Except.ok (some .rejected)) ∧
    ((findProj stRejected 1).map (·.status) = some .rejected ∧
      (approveProject stRejected (fac 4 1) 1).map
          (fun t => (findProj t 1).map (·.status)) = Except.ok (some .approved)) := by
  decide

/-- C3 amended: terminal status does not gate reviews — the handlers
never read `status` before mutating.  On a proposal whose status is
`approved` or `rejected`, a same-area faculty reject (with a valid
comment) still succeeds and sets the status to `rejected`, and an
approve still succeeds, appends to `reviewedBy`, and sets the status to
`approved` as soon as the list reaches 3 entries (leaving the old
status otherwise). -/
theorem C3_amended (s : St) (caller : Faculty) (pid : Nat) (project : Project)
    (owner : Faculty)
    (hp : findProj s pid = some project) (ho : findUser s project.faculty = some owner)
    (ha : owner.area = caller.area)
    (hterm : project.status = .approved ∨ project.status = .rejected) :
    (∀ comment, comment.length ≠ 0 → comment.length ≤ 2500 →
      (rejectProject s caller pid comment).map
          (fun t => (findProj t pid).map (·.status)) =
        Except.ok (some PStatus.rejected)) ∧
    (approveProject s caller pid).map
        (fun t => (findProj t pid).map (fun q => (q.reviewedBy, q.status))) =
      Except.ok (some (project.reviewedBy ++ [caller.fid],
        if 2 ≤ project.reviewedBy.length then PStatus.approved else project.status)) := by
  have hp' : s.projects.find? (fun q => q.pid == pid) = some project := hp
  have ho' : s.users.find? (fun u => u.fid == project.faculty) = some owner := ho
  constructor
  · intro comment hc1 hc2
    unfold rejectProject
    rw [if_neg (by push_neg; exact ⟨hc1, by omega⟩)]
    simp only [findProj, findUser, hp', ho', if_neg (not_not_intro ha), exmap_ok]
    rw [find?_replace s.projects pid project _ hp' (by rfl)]
    rfl
  · unfold approveProject
    simp only [findProj, findUser, hp', ho', if_neg (not_not_intro ha), exmap_ok]
    rw [find?_replace s.projects pid project _ hp' (by rfl)]
    show Except.ok (some (project.reviewedBy ++ [caller.fid],
        if 3 ≤ (project.reviewedBy ++ [caller.fid]).length
        then PStatus.approved else project.status)) =
      Except.ok (some (project.reviewedBy ++ [caller.fid],
        if 2 ≤ project.reviewedBy.length
        then PStatus.approved else project.status))
    have hlen : (project.reviewedBy ++ [caller.fid]).length =
        project.reviewedBy.length + 1 := by simp
    rw [hlen]
    by_cases h2 : 2 ≤ project.reviewedBy.length
    · rw [if_pos (by omega), if_pos h2]
    · rw [if_neg (by omega), if_neg h2]

/-- C3 amended, witnessed: the approved `proj1` gets rejected by a later
reject, and the rejected `proj1` (two reviews recorded) gets reopened to
`approved` by a later approve. -/
theorem C3_amended_witness :
    (rejectProject stApproved (fac 4 1) 1 "late veto").map
        (fun t => (findProj t 1).map (·.status)) = Except.ok (some .rejected) ∧
    (approveProject stRejected (fac 4 1) 1).map
        (fun t => (findProj t 1).map (fun q => (q.reviewedBy, q.status))) =
      Except.ok (some ([1, 2, 4], .approved)) := by
  have h1 := C3_amended stApproved (fac 4 1) 1
    { proj1 with status := .approved, reviewedBy := [1, 2, 3] } (fac 0 0)
    (by decide) (by decide) (by decide) (by decide)
  have h2 := C3_amended stRejected (fac 4 1) 1 projRejected (fac 0 0)
    (by decide) (by decide) (by decide) (by decide)
  refine ⟨?_, ?_⟩
  · rw [h1.1 "late veto" (by decide) (by decide)]
  · rw [h2.2]
    decide

/-! ## Claim C4 -/

/-- C4 is false on the code: on the reject-driven terminal transition of
`proj1`, faculty 6 — same research area but NOT on the assigned panel —
also has `projectsReviewed` decremented (1 to 0); and on an
approve-driven terminal transition (`stTwoApprovals` reaching the
3-approval threshold) no counter is decremented at all. -/
theorem C4_counterexample :
    ((6 : Nat) ∉ proj1.panel ∧
      (rejectProject baseSt (fac 1 1) 1 "needs more data").map
          (fun t => (findUser t 6).map (·.projectsReviewed)) = Except.ok (some 0)) ∧
    ((approveProject stTwoApprovals (fac 3 1) 1).map
        (fun t => ((findProj t 1).map (·.status), t.users)) =
      Except.ok (some .approved, stTwoApprovals.users)) := by
  decide

/-- C4 amended: on a reject the code decrements `projectsReviewed` of
EVERY faculty member in the caller's research area — panel members,
non-panel members and the proposer alike — once per reject call; on an
approve (terminal or not) no counter changes. -/
theorem C4_amended (s : St) (caller : Faculty) (pid : Nat) (project : Project)
    (owner : Faculty)
    (hp : findProj s pid = some project) (ho : findUser s project.faculty = some owner)
    (ha : owner.area = caller.area) :
    (∀ comment, comment.length ≠ 0 → comment.length ≤ 2500 →
      (rejectProject s caller pid comment).map St.users =
        Except.ok (s.users.map (fun u => if u.area == caller.area then
          { u with projectsReviewed := u.projectsReviewed - 1 } else u))) ∧
    (approveProject s caller pid).map St.users = Except.ok s.users := by
  have hp' : s.projects.find? (fun q => q.pid == pid) = some project := hp
  have ho' : s.users.find? (fun u => u.fid == project.faculty) = some owner := ho
  constructor
  · intro comment hc1 hc2
    unfold rejectProject
    rw [if_neg (by push_neg; exact ⟨hc1, by omega⟩)]
    simp only [findProj, findUser, hp', ho', if_neg (not_not_intro ha), exmap_ok]
  · unfold approveProject
    simp only [findProj, findUser, hp', ho', if_neg (not_not_intro ha), exmap_ok]

/-- C4 amended, witnessed on `baseSt`: the reject by panel member 1
decrements every CS-area member, the owner 0 included (0 to -1) and the
non-panel member 6 included (1 to 0); the approve changes no counter. -/
theorem C4_amended_witness :
    (rejectProject baseSt (fac 1 1) 1 "needs more data").map St.users =
      Except.ok [fac 0 (-1), fac 1 0, fac 2 0, fac 3 0, fac 4 0, fac 5 0,
        fac 6 0, fac 9 (-1)] ∧
    (approveProject baseSt (fac 1 1) 1).map St.users = Except.ok baseSt.users := by
  have h := C4_amended baseSt (fac 1 1) 1 proj1 (fac 0 0)
    (by decide) (by decide) (by decide)
  refine ⟨?_, h.2⟩
  rw [h.1 "needs more data" (by decide) (by decide)]
  decide

/-! ## Claim C5 -/

/-- C5 is false on the code: starting from `stC5` (capacity 1, the one
seat taken by a pending application), the owning faculty rejects that
application twice; each rejection increments `seatsAvailable`, leaving 2
seats remaining on a capacity-1 project, so seats-remaining exceeds the
capacity the proposal was created with. -/
theorem C5_counterexample :
    (do
      let s1 ← rejectApplication stC5 (fac 0 0) 1
      let s2 ← rejectApplication s1 (fac 0 0) 1
      pure ((findProj s2 1).map (fun p => (p.seatsAvailable, (p.seats : Int))))) =
      Except.ok (some (2, 1)) := by
  decide

/-- C5 amended: the lower bound holds — every operation preserves
`0 ≤ seats-remaining`, and `apply` on a proposal with no seat remaining
always fails — but the upper bound seats-remaining ≤ capacity does not:
explicit application rejection increments seats-remaining
unconditionally (even when re-rejecting an already rejected
application), so it can exceed the creation capacity. -/
theorem C5_amended (s : St) (hinv : seatsNonneg s)
    (hnd : (s.projects.map (·.pid)).Nodup) :
    (∀ caller title abstr tl seats newPid s',
      createProject s caller title abstr tl seats newPid = Except.ok s' → seatsNonneg s') ∧
    (∀ caller pid s', approveProject s caller pid = Except.ok s' → seatsNonneg s') ∧
    (∀ caller pid comment s',
      rejectProject s caller pid comment = Except.ok s' → seatsNonneg s') ∧
    (∀ student pid newAid s',
      applyToProject s student pid newAid = Except.ok s' → seatsNonneg s') ∧
    (∀ caller aid s', selectApplication s caller aid = Except.ok s' → seatsNonneg s') ∧
    (∀ caller aid s', rejectApplication s caller aid = Except.ok s' → seatsNonneg s') ∧
    (∀ student pid newAid project, findProj s pid = some project →
      project.seatsAvailable ≤ 0 →
      ∀ s', applyToProject s student pid newAid ≠ Except.ok s') := by
  refine ⟨?_, ?_, ?_, ?_, ?_, ?_, ?_⟩
  · intro caller title abstr tl seats newPid s' h
    unfold createProject at h
    split at h
    · exact absurd h (by simp)
    · split at h
      · exact absurd h (by simp)
      · split at h
        · exact absurd h (by simp)
        · simp only [Except.ok.injEq] at h
          subst h
          intro p hp
          rcases List.mem_append.1 hp with hmem | hmem
          · exact hinv p hmem
          · simp only [List.mem_singleton] at hmem
            subst hmem
            simp
  · intro caller pid s' h
    unfold approveProject at h
    split at h
    · exact absurd h (by simp)
    · rename_i project heq
      split at h
      · exact absurd h (by simp)
      · split at h
        · exact absurd h (by simp)
        · simp only [Except.ok.injEq] at h
          subst h
          refine seats_map_pres _ _ ?_ hinv
          intro q hq hq0
          split
          · exact hinv project (List.mem_of_find?_eq_some heq)
          · exact hq0
  · intro caller pid comment s' h
    unfold rejectProject at h
    split at h
    · exact absurd h (by simp)
    · split at h
      · exact absurd h (by simp)
      · rename_i project heq
        split at h
        · exact absurd h (by simp)
        · split at h
          · exact absurd h (by simp)
          · simp only [Except.ok.injEq] at h
            subst h
            refine seats_map_pres _ _ ?_ hinv
            intro q hq hq0
            split
            · exact hinv project (List.mem_of_find?_eq_some heq)
            · exact hq0
  · intro student pid newAid s' h
    unfold applyToProject at h
    split at h
    · exact absurd h (by simp)
    · split at h
      · exact absurd h (by simp)
      · split at h
        · exact absurd h (by simp)
        · rename_i project heq
          split at h
          · exact absurd h (by simp)
          · split at h
            · exact absurd h (by simp)
            · rename_i hstat hseat
              simp only [Except.ok.injEq] at h
              subst h
              refine seats_map_pres _ _ ?_ hinv
              intro q hq hq0
              split
              · rename_i hqpid
                have hqe : q = project := by
                  have haMem : project ∈ s.projects := List.mem_of_find?_eq_some heq
                  have haKey := List.find?_some heq
                  have h1 : q.pid = pid := by simpa using hqpid
                  have h2 : project.pid = pid := by simpa using haKey
                  exact List.inj_on_of_nodup_map hnd hq haMem (h1.trans h2.symm)
                show 0 ≤ q.seatsAvailable - 1
                rw [hqe]
                omega
              · exact hq0
  · intro caller aid s' h
    unfold selectApplication at h
    split at h
    · exact absurd h (by simp)
    · split at h
      · exact absurd h (by simp)
      · split at h
        · exact absurd h (by simp)
        · split at h
          · exact absurd h (by simp)
          · simp only [Except.ok.injEq] at h
            subst h
            exact hinv
  · intro caller aid s' h
    unfold rejectApplication at h
    split at h
    · exact absurd h (by simp)
    · split at h
      · exact absurd h (by simp)
      · split at h
        · exact absurd h (by simp)
        · simp only [Except.ok.injEq] at h
          subst h
          refine seats_map_pres _ _ ?_ hinv
          intro q hq hq0
          split
          · show 0 ≤ q.seatsAvailable + 1
            omega
          · exact hq0
  · intro student pid newAid project hp hle s' h
    unfold applyToProject at h
    split at h
    · exact absurd h (by simp)
    · split at h
      · exact absurd h (by simp)
      · split at h
        · exact absurd h (by simp)
        · rename_i project2 heq
          have hpe : project2 = project := by
            rw [hp] at heq
            exact (Option.some.inj heq).symm
          split at h
          · exact absurd h (by simp)
          · split at h
            · exact absurd h (by simp)
            · rename_i hstat hseat
              rw [hpe] at hseat
              exact hseat hle

/-- C5 amended, witnessed at `stC5`: the invariant holds there, apply on
the zero-seat project fails, and the state after one explicit rejection
still satisfies it. -/
theorem C5_amended_witness :
    seatsNonneg stC5 ∧
    applyToProject stC5 100 1 7 ≠ Except.ok stC5 ∧
    seatsNonneg stC5r := by
  have h := C5_amended stC5 (by unfold seatsNonneg; decide) (by decide)
  exact ⟨by unfold seatsNonneg; decide,
    h.2.2.2.2.2.2 100 1 7
      { proj1 with status := .approved, seats := 1, seatsAvailable := 0 }
      (by decide) (by decide) stC5,
    h.2.2.2.2.2.1 (fac 0 0) 1 stC5r (by decide)⟩

/-! ## Claim C6 -/

/-- C6: full characterisation of `apply` for an existing target project,
with the implementation's check order.  The student cap counts every
application whatever its status; DuplicateApplication fires next; the
claim's NotApplicable outcome splits into the two source errors
(`notApproved`, `noSeats`); on success exactly one pending application
is appended and the target project's seats-remaining drops by 1, with no
other state change. -/
theorem C6 (s : St) (student projectId newAid : Nat) (project : Project)
    (hp : findProj s projectId = some project) :
    (3 ≤ studentAppCount s student →
      applyToProject s student projectId newAid = Except.error Err.appLimit) ∧
    (studentAppCount s student < 3 → hasApplied s student projectId = true →
      applyToProject s student projectId newAid = Except.error Err.duplicateApp) ∧
    (studentAppCount s student < 3 → hasApplied s student projectId = false →
      project.status ≠ .approved →
      applyToProject s student projectId newAid = Except.error Err.notApproved) ∧
    (studentAppCount s student < 3 → hasApplied s student projectId = false →
      project.status = .approved → project.seatsAvailable ≤ 0 →
      applyToProject s student projectId newAid = Except.error Err.noSeats) ∧
    (studentAppCount s student < 3 → hasApplied s student projectId = false →
      project.status = .approved → 0 < project.seatsAvailable →
      applyToProject s student projectId newAid = Except.ok
        { s with
          applications := s.applications ++
            [{ aid := newAid, student := student, project := projectId,
               status := .pending }],
          projects := s.projects.map (fun q =>
            if q.pid == projectId then { q with seatsAvailable := q.seatsAvailable - 1 }
            else q) }) := by
  refine ⟨?_, ?_, ?_, ?_, ?_⟩
  · intro hcount
    unfold applyToProject
    rw [if_pos hcount]
  · intro hcount hdup
    unfold applyToProject
    rw [if_neg (by omega), if_pos hdup]
  · intro hcount hdup hstat
    unfold applyToProject
    rw [if_neg (by omega), if_neg (by simp [hdup])]
    simp only [hp]
    rw [if_pos hstat]
  · intro hcount hdup hstat hseat
    unfold applyToProject
    rw [if_neg (by omega), if_neg (by simp [hdup])]
    simp only [hp]
    rw [if_neg (not_not_intro hstat), if_pos hseat]
  · intro hcount hdup hstat hseat
    unfold applyToProject
    rw [if_neg (by omega), if_neg (by simp [hdup])]
    simp only [hp]
    rw [if_neg (not_not_intro hstat), if_neg (by omega)]

/-- C6 witnessed: a fresh student applying to the approved two-seat
project of `stC6` gets exactly the appended pending application and the
seat decrement, and a fresh student applying to the zero-seat project of
`stC5` fails with the seats error. -/
theorem C6_witness :
    applyToProject stC6 100 1 5 = Except.ok stC6a ∧
    applyToProject stC5 200 1 7 = Except.error Err.noSeats := by
  have h1 := C6 stC6 100 1 5 { proj1 with status := .approved } (by decide)
  have h2 := C6 stC5 200 1 7
    { proj1 with status := .approved, seats := 1, seatsAvailable := 0 } (by decide)
  refine ⟨?_, h2.2.2.2.1 (by decide) (by decide) (by decide) (by decide)⟩
  rw [h1.2.2.2.2 (by decide) (by decide) (by decide) (by decide)]
  decide

/-! ## Claims C7 and C10 share the success lemma `select_ok` -/

/-- Success case of the select handler: with ownership established and
no selected application of the student anywhere (the target's own status
is NOT consulted), the target becomes `selected` and every other
application of the student becomes `rejected`; `users` and `projects`
(hence every seat counter) are untouched. -/
theorem select_ok (s : St) (caller : Faculty) (aid : Nat) (application : Application)
    (project : Project)
    (hfind : findApp s aid = some application)
    (hproj : findProj s application.project = some project)
    (hown : project.faculty = caller.fid)
    (hnosel : ∀ a ∈ s.applications, a.student = application.student →
      a.status ≠ .selected) :
    selectApplication s caller aid = Except.ok
      { s with applications := s.applications.map (fun a =>
          if a.aid == aid then { a with status := .selected }
          else if a.student == application.student then { a with status := .rejected }
          else a) } := by
  have hsel : hasSelected s application.student = false := by
    unfold hasSelected
    rw [List.any_eq_false]
    intro a ha
    simp only [Bool.and_eq_true, beq_iff_eq, not_and]
    intro h1 h2
    exact hnosel a ha h1 h2
  unfold selectApplication
  simp only [hfind, hproj]
  rw [if_neg (not_not_intro hown), hsel]
  rfl

/-- C7: `select` fails with `notAuthorized` unless the caller owns the
target application's project; fails with `alreadySelected` when the
student has a selected application anywhere; and on success flips the
target to `selected`, every other application of the student (any
status, any project) to `rejected` — the state equality shows `projects`
(hence seats-remaining everywhere) unchanged — after which the student's
only selected application is the target. -/
theorem C7 (s : St) (caller : Faculty) (aid : Nat) (application : Application)
    (project : Project)
    (hfind : findApp s aid = some application)
    (hproj : findProj s application.project = some project) :
    (project.faculty ≠ caller.fid →
      selectApplication s caller aid = Except.error Err.notAuthorized) ∧
    ((∃ a ∈ s.applications, a.student = application.student ∧ a.status = .selected) →
      project.faculty = caller.fid →
      selectApplication s caller aid = Except.error Err.alreadySelected) ∧
    ((∀ a ∈ s.applications, a.student = application.student → a.status ≠ .selected) →
      project.faculty = caller.fid →
      selectApplication s caller aid = Except.ok
        { s with applications := s.applications.map (fun a =>
            if a.aid == aid then { a with status := .selected }
            else if a.student == application.student then { a with status := .rejected }
            else a) } ∧
      ∀ b ∈ s.applications.map (fun a =>
            if a.aid == aid then { a with status := AStatus.selected }
            else if a.student == application.student then
              { a with status := AStatus.rejected }
            else a),
        b.student = application.student → (b.status = AStatus.selected ↔ b.aid = aid)) := by
  refine ⟨?_, ?_, ?_⟩
  · intro hown
    unfold selectApplication
    simp only [hfind, hproj]
    rw [if_pos hown]
  · intro hex hown
    have hsel : hasSelected s application.student = true := by
      unfold hasSelected
      rw [List.any_eq_true]
      obtain ⟨a, ha, h1, h2⟩ := hex
      exact ⟨a, ha, by simp [h1, h2]⟩
    unfold selectApplication
    simp only [hfind, hproj]
    rw [if_neg (not_not_intro hown), hsel]
    rfl
  · intro hnosel hown
    refine ⟨select_ok s caller aid application project hfind hproj hown hnosel, ?_⟩
    intro b hb hstu
    obtain ⟨a, ha, rfl⟩ := List.mem_map.1 hb
    by_cases h1 : (a.aid == aid) = true
    · rw [if_pos h1] at hstu ⊢
      constructor
      · intro _
        show a.aid = aid
        simpa using h1
      · intro _
        rfl
    · rw [if_neg h1] at hstu ⊢
      by_cases h2 : (a.student == application.student) = true
      · rw [if_pos h2] at hstu ⊢
        constructor
        · intro hcon
          exact absurd hcon (by simp)
        · intro haid
          exact absurd (show (a.aid == aid) = true by simpa using haid) h1
      · rw [if_neg h2] at hstu ⊢
        exact absurd hstu (by simpa using h2)

/-- C7 witnessed at `stC7`: the non-owner faculty 7 is refused on
application 1; selecting for the already-selected student 200 is
refused; selecting application 1 succeeds, rejecting the sibling
application 2 and leaving the projects (seats) untouched. -/
theorem C7_witness :
    selectApplication stC7 (fac 7 0) 1 = Except.error Err.notAuthorized ∧
    selectApplication stC7 (fac 0 0) 3 = Except.error Err.alreadySelected ∧
    (selectApplication stC7 (fac 0 0) 1).map (fun t =>
        ((findApp t 1).map (·.status), (findApp t 2).map (·.status), t.projects)) =
      Except.ok (some .selected, some .rejected, stC7.projects) := by
  have ha1 := C7 stC7 (fac 7 0) 1
    { aid := 1, student := 100, project := 1, status := .pending }
    { proj1 with status := .approved, seatsAvailable := 1 } (by decide) (by decide)
  have ha3 := C7 stC7 (fac 0 0) 3
    { aid := 3, student := 200, project := 1, status := .selected }
    { proj1 with status := .approved, seatsAvailable := 1 } (by decide) (by decide)
  have hs := C7 stC7 (fac 0 0) 1
    { aid := 1, student := 100, project := 1, status := .pending }
    { proj1 with status := .approved, seatsAvailable := 1 } (by decide) (by decide)
  refine ⟨ha1.1 (by decide), ha3.2.1 (by decide) (by decide), ?_⟩
  rw [(hs.2.2 (by decide) (by decide)).1]
  decide

/-! ## Claim C8 -/

/-- C8: with at least 5 eligible faculty (same area, proposer excluded,
identifier-sorted ring), `getNextReviewers` returns exactly the 5
consecutive wrapping ring entries starting at offset
`(priorProposalCountInArea * 5) mod ringSize` — 5 distinct identifiers,
never the proposer, all in the area, the ring sorted by identifier —
and with fewer than 5 eligible faculty it fails with
`insufficientReviewers`. -/
theorem C8 (users : List Faculty) (area : String) (proposer : Nat) (count : Nat)
    (hnd : (users.map (·.fid)).Nodup) :
    ((eligibleRing users area proposer).length < 5 →
      getNextReviewers (eligibleRing users area proposer) count =
        Except.error Err.insufficientReviewers) ∧
    (5 ≤ (eligibleRing users area proposer).length →
      ∃ panel, getNextReviewers (eligibleRing users area proposer) count =
          Except.ok panel ∧
        panel.length = 5 ∧
        (panel.map (·.fid)).Nodup ∧
        (∀ r ∈ panel, r.area = area ∧ r.fid ≠ proposer) ∧
        (∀ i, i < 5 → panel.getD i dFac =
          (eligibleRing users area proposer).getD
            ((count * 5 % (eligibleRing users area proposer).length + i) %
              (eligibleRing users area proposer).length) dFac) ∧
        List.Sorted (fun a b => a.fid ≤ b.fid) (eligibleRing users area proposer)) := by
  have hringN : ((eligibleRing users area proposer).map (·.fid)).Nodup := by
    have hsub : ((users.filter
        (fun u => u.area == area && u.fid != proposer)).map (·.fid)).Nodup :=
      List.Nodup.sublist (List.Sublist.map _ (List.filter_sublist _)) hnd
    have hperm := List.perm_insertionSort (fun a b : Faculty => a.fid ≤ b.fid)
      (users.filter (fun u => u.area == area && u.fid != proposer))
    unfold eligibleRing
    exact ((hperm.map (·.fid)).nodup_iff).2 hsub
  have hringEl : (eligibleRing users area proposer).Nodup :=
    List.Nodup.of_map _ hringN
  constructor
  · intro hlt
    unfold getNextReviewers
    rw [if_pos hlt]
  · intro hge
    have hlen0 : 0 < (eligibleRing users area proposer).length := by omega
    refine ⟨(List.range 5).map (fun i =>
      (eligibleRing users area proposer).getD
        ((count * 5 % (eligibleRing users area proposer).length + i) %
          (eligibleRing users area proposer).length) dFac),
      ?_, by simp, ?_, ?_, ?_, ?_⟩
    · unfold getNextReviewers
      rw [if_neg (by omega)]
    · rw [List.map_map]
      refine List.Nodup.map_on ?_ (List.nodup_range 5)
      intro i hi j hj hfe
      have hi5 : i < 5 := List.mem_range.1 hi
      have hj5 : j < 5 := List.mem_range.1 hj
      have hidxi : (count * 5 % (eligibleRing users area proposer).length + i) %
          (eligibleRing users area proposer).length <
          (eligibleRing users area proposer).length := Nat.mod_lt _ hlen0
      have hidxj : (count * 5 % (eligibleRing users area proposer).length + j) %
          (eligibleRing users area proposer).length <
          (eligibleRing users area proposer).length := Nat.mod_lt _ hlen0
      simp only [Function.comp] at hfe
      rw [getD_of_lt _ _ _ hidxi, getD_of_lt _ _ _ hidxj] at hfe
      have heleq := List.inj_on_of_nodup_map hringN
        (List.getElem_mem hidxi) (List.getElem_mem hidxj) hfe
      have hidx := (hringEl.getElem_inj_iff).1 heleq
      exact mod_shift_inj (count * 5 % (eligibleRing users area proposer).length)
        (eligibleRing users area proposer).length i j hge hi5 hj5 hidx
    · intro r hr
      obtain ⟨i, hi, rfl⟩ := List.mem_map.1 hr
      have hidx : (count * 5 % (eligibleRing users area proposer).length + i) %
          (eligibleRing users area proposer).length <
          (eligibleRing users area proposer).length := Nat.mod_lt _ hlen0
      rw [getD_of_lt _ _ _ hidx]
      have hmem : (eligibleRing users area proposer)[(count * 5 %
          (eligibleRing users area proposer).length + i) %
          (eligibleRing users area proposer).length] ∈
          eligibleRing users area proposer := List.getElem_mem hidx
      unfold eligibleRing at hmem
      have hmem2 := (List.mem_insertionSort (fun a b : Faculty => a.fid ≤ b.fid)).1 hmem
      have hmem3 := List.mem_filter.1 hmem2
      simp only [Bool.and_eq_true, beq_iff_eq, bne_iff_ne] at hmem3
      exact ⟨hmem3.2.1, hmem3.2.2⟩
    · intro i hi5
      rw [getD_of_lt _ _ _ (show i < ((List.range 5).map (fun i =>
        (eligibleRing users area proposer).getD
          ((count * 5 % (eligibleRing users area proposer).length + i) %
            (eligibleRing users area proposer).length) dFac)).length
          by simpa using hi5)]
      rw [List.getElem_map, List.getElem_range]
    · haveI : IsTotal Faculty (fun a b => a.fid ≤ b.fid) :=
        ⟨fun a b => Nat.le_total a.fid b.fid⟩
      haveI : IsTrans Faculty (fun a b => a.fid ≤ b.fid) :=
        ⟨fun a b c => Nat.le_trans⟩
      unfold eligibleRing
      exact List.sorted_insertionSort _ _

/-- C8 witnessed: the 8-member CS area of `baseSt` (7 eligible for
proposer 0) yields a well-formed panel, and a 5-member area (4 eligible)
fails with `insufficientReviewers`. -/
theorem C8_witness :
    (∃ panel, getNextReviewers (eligibleRing baseSt.users "CS" 0) 1 =
        Except.ok panel ∧
      panel.length = 5 ∧ (panel.map (·.fid)).Nodup ∧
      ∀ r ∈ panel, r.area = "CS" ∧ r.fid ≠ 0) ∧
    getNextReviewers (eligibleRing [fac 0 0, fac 1 0, fac 2 0, fac 3 0, fac 4 0]
        "CS" 0) 0 =
      Except.error Err.insufficientReviewers := by
  refine ⟨?_, (C8 [fac 0 0, fac 1 0, fac 2 0, fac 3 0, fac 4 0] "CS" 0 0
    (by decide)).1 (by decide)⟩
  obtain ⟨panel, hpanel, hlen, hnodup, hmem, -, -⟩ :=
    (C8 baseSt.users "CS" 0 1 (by decide)).2 (by decide)
  exact ⟨panel, hpanel, hlen, hnodup, hmem⟩

/-! ## Claim C9 -/

/-- C9: with the panel already determined for the caller's area, project
creation fails with `workloadExceeded` whenever any selected reviewer has
a pending-load counter of 7 or more — the check sits before the project
insert and the counter update, so in the `Except` embedding the error
carries no state change — and when every selected reviewer is below 7 it
creates the pending project and increments exactly the selected
reviewers' counters by 1. -/
theorem C9 (s : St) (caller : Faculty) (title abstr tl : String) (seats newPid : Nat)
    (reviewers : List Faculty)
    (habs : abstr.length ≤ 2500)
    (hrev : getNextReviewers (eligibleRing s.users caller.area caller.fid)
      (areaProjectCount s caller.area) = Except.ok reviewers) :
    ((∃ r ∈ reviewers, 7 ≤ r.projectsReviewed) →
      createProject s caller title abstr tl seats newPid =
        Except.error Err.workloadExceeded) ∧
    ((∀ r ∈ reviewers, r.projectsReviewed < 7) →
      createProject s caller title abstr tl seats newPid = Except.ok
        { s with
          projects := s.projects ++
            [{ pid := newPid, title := title, abstract := abstr, timeline := tl,
               seats := seats, seatsAvailable := (seats : Int), faculty := caller.fid,
               status := .pending, reviewedBy := [],
               rejectionComments := [], panel := reviewers.map (·.fid) }],
          users := s.users.map (fun u =>
            if (reviewers.map (·.fid)).contains u.fid then
              { u with projectsReviewed := u.projectsReviewed + 1 }
            else u) }) := by
  constructor
  · intro hex
    have hany : (reviewers.any (fun r => 7 ≤ r.projectsReviewed)) = true := by
      rw [List.any_eq_true]
      obtain ⟨r, hr, h7⟩ := hex
      exact ⟨r, hr, by simpa using h7⟩
    unfold createProject
    rw [if_neg (by omega)]
    simp only [hrev]
    rw [if_pos hany]
  · intro hall
    have hany : (reviewers.any (fun r => 7 ≤ r.projectsReviewed)) = false := by
      rw [List.any_eq_false]
      intro r hr
      simpa using not_le.2 (hall r hr)
    unfold createProject
    rw [if_neg (by omega)]
    simp only [hrev]
    rw [hany]
    rfl

/-- C9 witnessed: in `stC9bad` the rotation picks faculty 3, whose
counter is at the ceiling 7, so creation is refused; in `baseSt` all
five picked reviewers are below the ceiling, the project is created with
the rotated panel `[6, 9, 1, 2, 3]`, panel member 1 goes from 1 to 2,
panel member 9 from 0 to 1. -/
theorem C9_witness :
    createProject stC9bad (fac 0 0) "t" "a" "tl" 3 2 =
      Except.error Err.workloadExceeded ∧
    (createProject baseSt (fac 0 0) "t" "a" "tl" 3 2).map (fun t =>
        ((findUser t 1).map (·.projectsReviewed),
          (findUser t 9).map (·.projectsReviewed),
          (findProj t 2).map (·.panel))) =
      Except.ok (some 2, some 1, some [6, 9, 1, 2, 3]) := by
  have h1 := C9 stC9bad (fac 0 0) "t" "a" "tl" 3 2
    [fac 6 1, fac 9 0, fac 1 1, fac 2 1, fac 3 7] (by decide) (by decide)
  have h2 := C9 baseSt (fac 0 0) "t" "a" "tl" 3 2
    [fac 6 1, fac 9 0, fac 1 1, fac 2 1, fac 3 1] (by decide) (by decide)
  refine ⟨h1.1 (by decide), ?_⟩
  rw [h2.2 (by decide)]
  decide

/-! ## Claim C10 -/

/-- C10: `select` never inspects the target application's own status —
given ownership and no selected application of the student anywhere, it
succeeds whatever the target's current status (the statement carries no
hypothesis about it), flipping the target to `selected` while `projects`
(hence every seats-remaining counter) stays exactly `s.projects`. -/
theorem C10 (s : St) (caller : Faculty) (aid : Nat) (application : Application)
    (project : Project)
    (hfind : findApp s aid = some application)
    (hproj : findProj s application.project = some project)
    (hown : project.faculty = caller.fid)
    (hnosel : ∀ a ∈ s.applications, a.student = application.student →
      a.status ≠ .selected) :
    (selectApplication s caller aid).map
        (fun t => ((findApp t aid).map (·.status), t.projects)) =
      Except.ok (some AStatus.selected, s.projects) := by
  have hfind' : s.applications.find? (fun a => a.aid == aid) = some application := hfind
  have hfa := List.find?_some hfind'
  rw [select_ok s caller aid application project hfind hproj hown hnosel, exmap_ok]
  have hk : ∀ a : Application,
      (((if (a.aid == aid) = true then { a with status := AStatus.selected }
        else if (a.student == application.student) = true then
          { a with status := AStatus.rejected }
        else a).aid == aid)) = (a.aid == aid) := by
    intro a
    by_cases h1 : (a.aid == aid) = true
    · rw [if_pos h1]
    · rw [if_neg h1]
      by_cases h2 : (a.student == application.student) = true
      · rw [if_pos h2]
      · rw [if_neg h2]
  simp only [findApp]
  rw [find?_map_pres _ _ hk, hfind']
  simp only [omap_some]
  rw [if_pos hfa]

/-- C10 witnessed at `stC10`: application 1 is currently `rejected`, its
student has no selected application, and `select` by the owning faculty
succeeds, flipping it to `selected` with the projects list (seats)
unchanged. -/
theorem C10_witness :
    (findApp stC10 1).map (·.status) = some AStatus.rejected ∧
    (selectApplication stC10 (fac 0 0) 1).map
        (fun t => ((findApp t 1).map (·.status), t.projects)) =
      Except.ok (some AStatus.selected, stC10.projects) := by
  refine ⟨by decide, ?_⟩
  exact C10 stC10 (fac 0 0) 1
    { aid := 1, student := 100, project := 1, status := .rejected }
    { proj1 with status := .approved, seatsAvailable := 1 }
    (by decide) (by decide) (by decide) (by decide)

end Portal

